import Mathlib

/-!
Shallow embedding of the graphman command-execution framework:
the postgres-backed execution store (store/postgres/src/graphman_store/mod.rs),
the layering primitives (core/graphman_primitives) and the extensions
(core/graphman_extensions).  UUIDs are modelled as naturals, timestamps and
durations as integers (seconds), JSON values as opaque strings, and the
database table as a list of rows; a diesel UPDATE is a map over the rows that
applies the SET clause exactly where the WHERE filters hold.
-/

namespace Graphman

/-- Status column of a persisted execution record
(store/postgres/src/graphman_store/models.rs, ExecutionStatus). -/
inductive ExecutionStatus where
  | inProgress
  | failed
  | succeeded
deriving DecidableEq, Repr

/-- One row of the graphman_command_executions table
(store/postgres/src/graphman_store/models.rs, Execution). -/
structure Execution where
  id : Nat
  kind : String
  status : ExecutionStatus
  error_message : Option String
  command_output : Option String
  started_at : Int
  updated_at : Option Int
  completed_at : Option Int
deriving DecidableEq, Repr

/-- GraphmanStore::new_execution: inserts a fresh InProgress row with
started_at = now and all other nullable columns NULL. -/
def newExecution (db : List Execution) (id : Nat) (kind : String) (now : Int) :
    List Execution :=
  db ++ [{ id := id, kind := kind, status := .inProgress, error_message := none,
           command_output := none, started_at := now, updated_at := none,
           completed_at := none }]

/-- GraphmanStore::execution_in_progress: UPDATE SET status = InProgress,
updated_at = now WHERE id = id AND completed_at IS NULL.  The source discards
the affected-row count and returns Ok(()), so the embedding returns only the
new table state. -/
def executionInProgress (db : List Execution) (id : Nat) (now : Int) :
    List Execution :=
  db.map fun r =>
    if r.id = id ∧ r.completed_at = none then
      { r with status := .inProgress, updated_at := some now }
    else r

/-- GraphmanStore::execution_failed: UPDATE SET status = Failed,
error_message = msg, completed_at = now WHERE id = id.  Note: no filter on
completed_at, so the update also hits already-completed rows. -/
def executionFailed (db : List Execution) (id : Nat) (msg : String) (now : Int) :
    List Execution :=
  db.map fun r =>
    if r.id = id then
      { r with status := .failed, error_message := some msg,
               completed_at := some now }
    else r

/-- GraphmanStore::execution_succeeded: UPDATE SET status = Succeeded,
command_output = out, completed_at = now WHERE id = id.  As for
execution_failed, there is no completed_at filter. -/
def executionSucceeded (db : List Execution) (id : Nat) (out : Option String)
    (now : Int) : List Execution :=
  db.map fun r =>
    if r.id = id then
      { r with status := .succeeded, command_output := out,
               completed_at := some now }
    else r

/-- The staleness filter of GraphmanStore::handle_broken_executions, written
exactly as the SQL disjunction: (updated_at IS NULL AND started_at < minTs)
OR (updated_at IS NOT NULL AND updated_at < minTs). -/
def staleActivity (r : Execution) (minTs : Int) : Prop :=
  (r.updated_at = none ∧ r.started_at < minTs) ∨
  (∃ u, r.updated_at = some u ∧ u < minTs)

instance (r : Execution) (minTs : Int) : Decidable (staleActivity r minTs) := by
  unfold staleActivity
  cases h : r.updated_at with
  | none => exact decidable_of_iff (r.started_at < minTs) (by simp [h])
  | some u => exact decidable_of_iff (u < minTs) (by simp [h])

/-- GraphmanStore::handle_broken_executions: UPDATE SET status = Failed,
error_message = "Timeout", completed_at = now WHERE kind = kind AND
status = InProgress AND the staleness disjunction holds against
min_inactive_timestamp = now - max_inactive_time.  The source calls
Utc::now() twice (cutoff and completed_at); the embedding uses one clock
reading for both, which no claim distinguishes. -/
def handleBrokenExecutions (db : List Execution) (kind : String)
    (maxInactiveTime : Int) (now : Int) : List Execution :=
  let minInactiveTimestamp := now - maxInactiveTime
  db.map fun r =>
    if r.kind = kind ∧ r.status = .inProgress ∧ staleActivity r minInactiveTimestamp then
      { r with status := .failed, error_message := some "Timeout",
               completed_at := some now }
    else r

/-- GraphmanExtensionError (core/graphman_extensions/src/error.rs): the four
error kinds, each carrying the extension name and a stringified source. -/
inductive GraphmanExtensionError where
  | extensionFailed (extensionName : String) (source : String)
  | commandFailed (extensionName : String) (source : String)
  | context (extensionName : String) (source : String)
  | datastore (extensionName : String) (source : String)
deriving DecidableEq, Repr

/-- DynamicContextNotFound (core/graphman_primitives/src/dynamic_context.rs):
the lookup failure, carrying the missing type's name. -/
structure DynamicContextNotFound where
  typeName : String
deriving DecidableEq, Repr

/-- One entry of the DynamicContext map: a TypeId (modelled as a natural tag)
together with a boxed value of the type behind that tag. -/
structure DynEntry (Val : Nat → Type) where
  tag : Nat
  val : Val tag

/-- DynamicContext::extend: HashMap::insert keyed by TypeId::of::(T).
Insertion overwrites the previous value of the same type; the embedding
shadows it (dcGet returns the first, i.e. newest, entry for a tag). -/
def dcExtend {Val : Nat → Type} (ctx : List (DynEntry Val)) (t : Nat)
    (v : Val t) : List (DynEntry Val) :=
  ⟨t, v⟩ :: ctx

/-- DynamicContext::get: HashMap lookup by TypeId::of::(T) followed by
downcast_ref, with a DynamicContextNotFound carrying
std::any::type_name::(T) when nothing is stored under that type. -/
def dcGet {Val : Nat → Type} (typeName : Nat → String) :
    List (DynEntry Val) → (t : Nat) → Except DynamicContextNotFound (Val t)
  | [], t => .error ⟨typeName t⟩
  | e :: rest, t =>
      if h : e.tag = t then .ok (h ▸ e.val) else dcGet typeName rest t

/-- A command in the trace model used for the layering claims: executing it
yields an event trace and an output value, mirroring the repository's own
test commands whose output records the visit order. -/
structure TCmd where
  trace : List String
  output : String
deriving DecidableEq, Repr

/-- A layer in the trace model, identified by its name. -/
structure TLayer where
  name : String
deriving DecidableEq, Repr

/-- Event emitted when a layer starts running, before it invokes its inner
command. -/
def layerEnter (l : TLayer) : String := l.name ++ "-enter"

/-- Event emitted when a layer finishes, after its inner command returned. -/
def layerExit (l : TLayer) : String := l.name ++ "-exit"

/-- GraphmanLayer::layer in the trace model: the wrapped command runs the
layer's entry logic, then the inner command, then the layer's exit logic, and
the layer's own output (here: its name prepended to the inner output, as in
the repository's TestExtensionLayer) becomes the observable output. -/
def wrapT (l : TLayer) (c : TCmd) : TCmd :=
  { trace := layerEnter l :: (c.trace ++ [layerExit l])
    output := l.name ++ "," ++ c.output }

/-- IntuitiveLayering (core/graphman_primitives/src/intuitive_layering.rs):
a base command plus the stack of added layers.  The Rust stores the layers as
a tuple whose head is the most recently added layer; the list below keeps the
same order. -/
structure IntuitiveLayering where
  command : TCmd
  layers : List TLayer

/-- IntuitiveLayering::new: no layers yet. -/
def IntuitiveLayering.mk0 (c : TCmd) : IntuitiveLayering :=
  { command := c, layers := [] }

/-- IntuitiveLayering::layer: prepends the new layer to the stored stack,
exactly as the macro arm builds the tuple (layer, L1, ..., Ln). -/
def IntuitiveLayering.layer (il : IntuitiveLayering) (l : TLayer) :
    IntuitiveLayering :=
  { command := il.command, layers := l :: il.layers }

/-- The @command macro arm's execute: destructure the stored tuple, wrap the
base command with its head (the last layer added), then wrap each following
element around the result, so the tuple's last element -- the first layer
added -- ends up outermost; finally run the fully wrapped command. -/
def IntuitiveLayering.execute (il : IntuitiveLayering) : TCmd :=
  il.layers.foldl (fun acc l => wrapT l acc) il.command

/-- Repeated .layer calls in the given order, as callers of the API write
them. -/
def IntuitiveLayering.addLayers (il : IntuitiveLayering) (ls : List TLayer) :
    IntuitiveLayering :=
  ls.foldl IntuitiveLayering.layer il

/-- PreventDuplicateExecutionsExtension::execute
(core/graphman_extensions/src/prevent_duplicate_executions.rs).  Inputs are
the result of ctx.get::(CommandKind), the store's any_executions_in_progress
call, and the inner command's result; the Bool records whether the source
path reaches inner.execute(ctx). -/
def preventDuplicateExecute {O : Type} (getKind : Except String String)
    (anyInProgress : String → Except String Bool)
    (inner : Except String O) : Except GraphmanExtensionError O × Bool :=
  match getKind with
  | .error err => (.error (.context "PreventDuplicateExecutions" err), false)
  | .ok kind =>
    match anyInProgress kind with
    | .error err => (.error (.datastore "PreventDuplicateExecutions" err), false)
    | .ok true =>
        (.error (.extensionFailed "PreventDuplicateExecutions"
          ("other executions of kind '" ++ kind ++ "' are in progress")), false)
    | .ok false =>
      match inner with
      | .ok o => (.ok o, true)
      | .error e => (.error (.commandFailed "PreventDuplicateExecutions" e), true)

/-- DEFAULT_MAX_INACTIVE_TIME
(core/graphman_extensions/src/handle_broken_executions.rs):
Duration::from_secs(300), in seconds. -/
def DEFAULT_MAX_INACTIVE_TIME : Int := 300

/-- HandleBrokenExecutionsExtension::execute
(core/graphman_extensions/src/handle_broken_executions.rs): read the command
kind from the context, tell the store to reap broken executions of that kind,
then delegate to the inner command (which observes the reaped table and may
update it further), wrapping an inner error as CommandFailed.  Store
connection failures are outside this pure model. -/
def hbeExecute {O : Type} (getKind : Except String String)
    (maxInactiveTime : Int) (now : Int) (db : List Execution)
    (inner : List Execution → Except String O × List Execution) :
    Except GraphmanExtensionError O × List Execution :=
  match getKind with
  | .error err => (.error (.context "HandleBrokenExecutions" err), db)
  | .ok kind =>
    let db1 := handleBrokenExecutions db kind maxInactiveTime now
    match inner db1 with
    | (.ok o, db2) => (.ok o, db2)
    | (.error e, db2) => (.error (.commandFailed "HandleBrokenExecutions" e), db2)

/-- ExecuteInBackgroundExtension::execute
(core/graphman_extensions/src/execute_in_background.rs): read the
CommandExecutionId from the context; on failure return a Context error
without spawning; on success spawn the inner command (tokio::spawn whose
JoinHandle is bound to _handle and dropped, so no cancellation handle
exists) and immediately return the id.  The Bool records whether the inner
command was spawned. -/
def executeInBackground (ctxId : Except String Nat) :
    Except GraphmanExtensionError Nat × Bool :=
  match ctxId with
  | .error err => (.error (.context "ExecuteInBackground" err), false)
  | .ok id => (.ok id, true)

/-- DEFAULT_HEARTBEAT_INTERVAL (core/graphman_extensions/src/track_execution.rs):
Duration::from_secs(10), in seconds. -/
def DEFAULT_HEARTBEAT_INTERVAL : Nat := 10

/-- The heartbeat loop of TrackExecutionExtension: sleep the interval, call
store.execution_in_progress, return a Datastore error on failure, otherwise
loop.  Given the successive store responses, this returns the 0-based index
of the first failing call together with its error, or none when every listed
response succeeds -- the loop only ever returns on an error. -/
def firstHbError : List (Except String Unit) → Option (Nat × String)
  | [] => none
  | .ok () :: rest => (firstHbError rest).map fun p => (p.1 + 1, p.2)
  | .error e :: _ => some (0, e)

/-- Which branch of the tokio::select! in TrackExecutionExtension::execute
settles first. -/
inductive RaceWinner where
  | innerDone
  | timeout
  | heartbeat (err : String)
deriving DecidableEq, Repr

/-- The tokio::select! race, in a discrete-time model: the inner command
settles at innerTime, the timeout branch at maxTime, and the heartbeat
branch at hbInterval * (k + 1) when the k-th heartbeat call (each preceded
by one interval of sleep) is the first to fail.  The earliest branch wins;
tokio breaks ties randomly, so this model fixes an arbitrary choice at ties
and the theorems below only use strict orderings. -/
def raceWinner (innerTime maxTime hbInterval : Nat)
    (hbResponses : List (Except String Unit)) : RaceWinner :=
  match firstHbError hbResponses with
  | some (k, e) =>
      let t := hbInterval * (k + 1)
      if t < innerTime ∧ t < maxTime then .heartbeat e
      else if maxTime < innerTime then .timeout
      else .innerDone
  | none => if maxTime < innerTime then .timeout else .innerDone

/-- Instrumentation of the side effects TrackExecutionExtension performs:
whether new_execution registered a record, whether the inner command's
future was started, whether the heartbeat loop was started, and whether
execution_succeeded / execution_failed were called. -/
structure TrackEffects where
  registered : Bool
  innerStarted : Bool
  heartbeatLoopStarted : Bool
  succeededCalled : Bool
  failedCalled : Bool
deriving DecidableEq, Repr

/-- Effects before anything happened: nothing registered, run, heartbeated
or finalized. -/
def noEffects : TrackEffects :=
  { registered := false, innerStarted := false, heartbeatLoopStarted := false,
    succeededCalled := false, failedCalled := false }

/-- Result of one run of TrackExecutionExtension::execute: the value
returned to the caller, the final table state, and the effect trace. -/
structure TrackOutcome (O : Type) where
  result : Except GraphmanExtensionError O
  db : List Execution
  effects : TrackEffects

/-- TrackExecutionExtension::execute
(core/graphman_extensions/src/track_execution.rs): read the execution id
then the command kind from the context (Context error on failure), register
a new InProgress record via new_execution (Datastore error on failure; the
regResult input is the store call's outcome), then race the inner command,
the max-execution-time sleep and the heartbeat loop.  A winning heartbeat
failure returns the error wrapped as a Datastore error with anyhow context
"heartbeat failed"; a winning timeout persists Failed("Timeout") and returns
ExtensionFailed("Timeout"); a winning inner result is finalized by
handle_execution_result: on Ok serialize the output (ExtensionFailed with
context "failed to convert output" on failure, touching the store not at
all), persist Succeeded and return the output; on Err persist Failed and
return CommandFailed.  Store failures during finalization are outside this
pure model. -/
def trackExecute {O : Type} (ctxId : Except String Nat)
    (ctxKind : Except String String) (regResult : Except String Unit)
    (db : List Execution) (nowReg : Int)
    (innerTime maxTime hbInterval : Nat)
    (hbResponses : List (Except String Unit))
    (innerResult : Except String O) (serialize : O → Except String String)
    (nowFin : Int) : TrackOutcome O :=
  match ctxId with
  | .error e => ⟨.error (.context "TrackExecution" e), db, noEffects⟩
  | .ok id =>
  match ctxKind with
  | .error e => ⟨.error (.context "TrackExecution" e), db, noEffects⟩
  | .ok kind =>
  match regResult with
  | .error e => ⟨.error (.datastore "TrackExecution" e), db, noEffects⟩
  | .ok _ =>
    let db1 := newExecution db id kind nowReg
    match raceWinner innerTime maxTime hbInterval hbResponses with
    | .heartbeat err =>
        ⟨.error (.datastore "TrackExecution" ("heartbeat failed: " ++ err)),
         db1,
         { registered := true, innerStarted := true,
           heartbeatLoopStarted := true, succeededCalled := false,
           failedCalled := false }⟩
    | .timeout =>
        ⟨.error (.extensionFailed "TrackExecution" "Timeout"),
         executionFailed db1 id "Timeout" nowFin,
         { registered := true, innerStarted := true,
           heartbeatLoopStarted := true, succeededCalled := false,
           failedCalled := true }⟩
    | .innerDone =>
      match innerResult with
      | .ok output =>
        match serialize output with
        | .error err =>
            ⟨.error (.extensionFailed "TrackExecution"
               ("failed to convert output: " ++ err)), db1,
             { registered := true, innerStarted := true,
               heartbeatLoopStarted := true, succeededCalled := false,
               failedCalled := false }⟩
        | .ok json =>
            ⟨.ok output, executionSucceeded db1 id (some json) nowFin,
             { registered := true, innerStarted := true,
               heartbeatLoopStarted := true, succeededCalled := true,
               failedCalled := false }⟩
      | .error err =>
          ⟨.error (.commandFailed "TrackExecution" err),
           executionFailed db1 id err nowFin,
           { registered := true, innerStarted := true,
             heartbeatLoopStarted := true, succeededCalled := false,
             failedCalled := true }⟩

/-- C1 (counterexample): the claim that a duplicate finalize attempt leaves a
completed record's fields unchanged is false.  The record with id 1 is
Succeeded with completed_at = 5; calling execution_failed again for id 1 at
time 9 rewrites status, error_message and completed_at, because the update
filters only by id. -/
theorem c1_counterexample :
    executionFailed
        [{ id := 1, kind := "K", status := .succeeded, error_message := none,
           command_output := some "out", started_at := 0, updated_at := none,
           completed_at := some 5 }] 1 "again" 9 ≠
      [{ id := 1, kind := "K", status := .succeeded, error_message := none,
         command_output := some "out", started_at := 0, updated_at := none,
         completed_at := some 5 }] := by
  decide

/-- C1 (amended): once a record's completed_at is set (status Failed or
Succeeded), a subsequent heartbeat (execution_in_progress) and a
broken-execution reap (handle_broken_executions) leave all of its fields
unchanged; a duplicate finalize attempt, however, does mutate it, since
execution_failed and execution_succeeded filter only by id. -/
theorem c1_completed_immune_to_heartbeat_and_reap
    (db : List Execution) (k : Nat) (hk : k < db.length)
    (hc : db[k].completed_at ≠ none)
    (hs : db[k].status ≠ ExecutionStatus.inProgress)
    (i : Nat) (now : Int) (kind : String) (maxInactiveTime now2 : Int) :
    (executionInProgress db i now)[k]? = some db[k] ∧
    (handleBrokenExecutions db kind maxInactiveTime now2)[k]? = some db[k] := by
  have h1 : ¬ (db[k].id = i ∧ db[k].completed_at = none) := fun h => hc h.2
  have h2 : ¬ (db[k].kind = kind ∧ db[k].status = ExecutionStatus.inProgress ∧
      staleActivity db[k] (now2 - maxInactiveTime)) := fun h => hs h.2.1
  refine ⟨?_, ?_⟩
  · simp [executionInProgress, List.getElem?_map,
      List.getElem?_eq_getElem hk, if_neg h1]
  · simp [handleBrokenExecutions, List.getElem?_map,
      List.getElem?_eq_getElem hk, if_neg h2]

/-- C1 (witness): the amended theorem applied to a concrete one-row table
holding a Succeeded record with completed_at = 5. -/
theorem c1_completed_immune_witness :
    ((0 : Nat) <
      ([{ id := 1, kind := "K", status := .succeeded, error_message := none,
          command_output := some "out", started_at := 0, updated_at := none,
          completed_at := some 5 }] : List Execution).length) ∧
    (([{ id := 1, kind := "K", status := .succeeded, error_message := none,
         command_output := some "out", started_at := 0, updated_at := none,
         completed_at := some 5 }] : List Execution)[0].completed_at ≠ none) ∧
    (([{ id := 1, kind := "K", status := .succeeded, error_message := none,
         command_output := some "out", started_at := 0, updated_at := none,
         completed_at := some 5 }] : List Execution)[0].status ≠
       ExecutionStatus.inProgress) ∧
    ((executionInProgress
        [{ id := 1, kind := "K", status := .succeeded, error_message := none,
           command_output := some "out", started_at := 0, updated_at := none,
           completed_at := some 5 }] 1 7)[0]? =
      some { id := 1, kind := "K", status := .succeeded, error_message := none,
             command_output := some "out", started_at := 0, updated_at := none,
             completed_at := some 5 } ∧
     (handleBrokenExecutions
        [{ id := 1, kind := "K", status := .succeeded, error_message := none,
           command_output := some "out", started_at := 0, updated_at := none,
           completed_at := some 5 }] "K" 300 9999)[0]? =
      some { id := 1, kind := "K", status := .succeeded, error_message := none,
             command_output := some "out", started_at := 0, updated_at := none,
             completed_at := some 5 }) :=
  ⟨by decide, by decide, by decide,
   c1_completed_immune_to_heartbeat_and_reap
     [{ id := 1, kind := "K", status := .succeeded, error_message := none,
        command_output := some "out", started_at := 0, updated_at := none,
        completed_at := some 5 }] 0 (by decide) (by decide) (by decide)
     1 7 "K" 300 9999⟩

/-- C9: a heartbeat (execution_in_progress) for an id whose record is already
completed, or for an id with no record at all, returns success and changes
nothing (the source discards the affected-row count and returns Ok); in
general exactly the rows with that id and completed_at unset get status
InProgress and updated_at refreshed, all other rows are untouched. -/
theorem c9_heartbeat_silent_noop (db : List Execution) (i : Nat) (now : Int) :
    ((∀ r ∈ db, r.id = i → r.completed_at ≠ none) →
       executionInProgress db i now = db) ∧
    (∀ k : Nat, (executionInProgress db i now)[k]? = (db[k]?).map fun r =>
        if r.id = i ∧ r.completed_at = none then
          { r with status := .inProgress, updated_at := some now }
        else r) := by
  refine ⟨?_, ?_⟩
  · induction db with
    | nil => intro _; rfl
    | cons r rest ih =>
        intro h
        have hr : ¬ (r.id = i ∧ r.completed_at = none) :=
          fun hh => h r (List.mem_cons_self r rest) hh.1 hh.2
        have hrest := ih fun r' hr' => h r' (List.mem_cons_of_mem r hr')
        simp only [executionInProgress, List.map_cons, if_neg hr] at hrest ⊢
        rw [hrest]
  · intro k
    simp [executionInProgress, List.getElem?_map]

/-- C9 (witness): the theorem applied to a one-row table whose only record is
completed, with a non-matching id as well: the heartbeat is a no-op. -/
theorem c9_heartbeat_silent_noop_witness :
    (∀ r ∈ ([{ id := 1, kind := "K", status := .failed,
               error_message := some "e", command_output := none,
               started_at := 0, updated_at := none, completed_at := some 3 }] :
             List Execution), r.id = 1 → r.completed_at ≠ none) ∧
    executionInProgress
        [{ id := 1, kind := "K", status := .failed, error_message := some "e",
           command_output := none, started_at := 0, updated_at := none,
           completed_at := some 3 }] 1 8 =
      [{ id := 1, kind := "K", status := .failed, error_message := some "e",
         command_output := none, started_at := 0, updated_at := none,
         completed_at := some 3 }] :=
  ⟨by decide,
   (c9_heartbeat_silent_noop
      [{ id := 1, kind := "K", status := .failed, error_message := some "e",
         command_output := none, started_at := 0, updated_at := none,
         completed_at := some 3 }] 1 8).1 (by decide)⟩

/-- Adding layers never touches the wrapped base command. -/
lemma addLayers_command (il : IntuitiveLayering) (ls : List TLayer) :
    (il.addLayers ls).command = il.command := by
  induction ls generalizing il with
  | nil => rfl
  | cons l ls ih =>
      simpa [IntuitiveLayering.addLayers, IntuitiveLayering.layer] using
        ih (il.layer l)

/-- Adding layers in order L1, ..., Ln stores them reversed, newest first,
exactly as the Rust tuple (Ln, ..., L1) is built. -/
lemma addLayers_layers (il : IntuitiveLayering) (ls : List TLayer) :
    (il.addLayers ls).layers = ls.reverse ++ il.layers := by
  induction ls generalizing il with
  | nil => simp [IntuitiveLayering.addLayers]
  | cons l ls ih =>
      have := ih (il.layer l)
      simp only [IntuitiveLayering.addLayers, List.foldl_cons] at this ⊢
      rw [this]
      simp [IntuitiveLayering.layer]

/-- The trace of a command wrapped outside-in by ls: each layer contributes
its enter event before, and its exit event after, everything inside it. -/
lemma foldr_wrapT_trace (c : TCmd) (ls : List TLayer) :
    (ls.foldr wrapT c).trace =
      ls.map layerEnter ++ c.trace ++ ls.reverse.map layerExit := by
  induction ls with
  | nil => simp
  | cons l ls ih => simp [wrapT, ih]

/-- C2: stacking layers L1, ..., Ln (1 <= n <= 10) in order via repeated
.layer calls and executing the composition behaves as wrapping the base
command with Ln innermost and L1 outermost (the foldr), so the observed
trace is L1-enter, ..., Ln-enter, base trace, Ln-exit, ..., L1-exit, and
the composed observable output is that produced by the outermost layer L1. -/
theorem c2_intuitive_layering_order (c : TCmd) (ls : List TLayer)
    (h1 : 1 ≤ ls.length) (h2 : ls.length ≤ 10) :
    ((IntuitiveLayering.mk0 c).addLayers ls).execute = ls.foldr wrapT c ∧
    (((IntuitiveLayering.mk0 c).addLayers ls).execute).trace =
      ls.map layerEnter ++ c.trace ++ ls.reverse.map layerExit := by
  have hexec :
      ((IntuitiveLayering.mk0 c).addLayers ls).execute = ls.foldr wrapT c := by
    unfold IntuitiveLayering.execute
    rw [addLayers_layers, addLayers_command]
    simp only [IntuitiveLayering.mk0, List.append_nil]
    rw [List.foldl_reverse]
  exact ⟨hexec, by rw [hexec]; exact foldr_wrapT_trace c ls⟩

/-- C2 (witness): two layers B, C stacked onto base command A execute as
B-enter, C-enter, A, C-exit, B-exit with B's output outermost. -/
theorem c2_intuitive_layering_order_witness :
    (1 ≤ ([⟨"B"⟩, ⟨"C"⟩] : List TLayer).length) ∧
    (([⟨"B"⟩, ⟨"C"⟩] : List TLayer).length ≤ 10) ∧
    ((IntuitiveLayering.mk0 ⟨["A"], "A"⟩).addLayers [⟨"B"⟩, ⟨"C"⟩]).execute =
      ([⟨"B"⟩, ⟨"C"⟩] : List TLayer).foldr wrapT ⟨["A"], "A"⟩ ∧
    (((IntuitiveLayering.mk0 ⟨["A"], "A"⟩).addLayers [⟨"B"⟩, ⟨"C"⟩]).execute).trace =
      ["B-enter", "C-enter", "A", "C-exit", "B-exit"] :=
  ⟨by decide, by decide,
   (c2_intuitive_layering_order ⟨["A"], "A"⟩ [⟨"B"⟩, ⟨"C"⟩]
      (by decide) (by decide)).1,
   by
     rw [(c2_intuitive_layering_order ⟨["A"], "A"⟩ [⟨"B"⟩, ⟨"C"⟩]
        (by decide) (by decide)).2]
     decide⟩

/-- A sequence of extend calls applied in order to a context. -/
def dcApplyAll {Val : Nat → Type} (ctx : List (DynEntry Val))
    (ops : List (DynEntry Val)) : List (DynEntry Val) :=
  ops.foldl (fun c e => dcExtend c e.tag e.val) ctx

/-- Lookup fails with the type's name when no entry carries the tag. -/
lemma dcGet_error_of_all_ne {Val : Nat → Type} (typeName : Nat → String)
    (ctx : List (DynEntry Val)) (t : Nat) (h : ∀ e ∈ ctx, e.tag ≠ t) :
    dcGet typeName ctx t = .error ⟨typeName t⟩ := by
  induction ctx with
  | nil => rfl
  | cons e rest ih =>
      have he : e.tag ≠ t := h e (List.mem_cons_self e rest)
      simp only [dcGet, dif_neg he]
      exact ih fun e' h' => h e' (List.mem_cons_of_mem e h')

/-- Every entry of an extended context comes from the start context or from
one of the extend calls. -/
lemma mem_dcApplyAll {Val : Nat → Type} (ctx ops : List (DynEntry Val))
    (e : DynEntry Val) (h : e ∈ dcApplyAll ctx ops) : e ∈ ctx ∨ e ∈ ops := by
  induction ops generalizing ctx with
  | nil => exact Or.inl h
  | cons o os ih =>
      rcases ih (dcExtend ctx o.tag o.val) h with h' | h'
      · rcases List.mem_cons.mp h' with h'' | h''
        · right
          rw [h'']
          exact List.mem_cons_self o os
        · left; exact h''
      · right; exact List.mem_cons_of_mem o h'

/-- C6: in the dynamic context, extending with x then y of the same type T
makes get return y (last write wins); extending with values of two distinct
types T and U retains both independently; and get for a type T the context
was never extended with fails with a DynamicContextNotFound carrying T's
type name. -/
theorem c6_dynamic_context_semantics {Val : Nat → Type}
    (typeName : Nat → String) (ctx : List (DynEntry Val)) (T U : Nat)
    (x y : Val T) (z : Val U) (hTU : T ≠ U) (ops : List (DynEntry Val))
    (hops : ∀ e ∈ ops, e.tag ≠ T) :
    dcGet typeName (dcExtend (dcExtend ctx T x) T y) T = .ok y ∧
    (dcGet typeName (dcExtend (dcExtend ctx T x) U z) T = .ok x ∧
     dcGet typeName (dcExtend (dcExtend ctx T x) U z) U = .ok z) ∧
    dcGet typeName (dcApplyAll [] ops) T = .error ⟨typeName T⟩ := by
  have hUT : U ≠ T := fun h => hTU h.symm
  refine ⟨?_, ⟨?_, ?_⟩, ?_⟩
  · simp only [dcExtend, dcGet, dif_pos rfl, dite_true]
  · simp only [dcExtend, dcGet, dif_neg hUT, dif_pos rfl, dite_true]
  · simp only [dcExtend, dcGet, dif_neg hTU, dif_pos rfl, dite_true]
  · exact dcGet_error_of_all_ne typeName _ T fun e he => by
      rcases mem_dcApplyAll [] ops e he with h | h
      · cases h
      · exact hops e h

/-- C6 (witness): with Nat behind every tag, tags 0 and 1 as the two types:
extending twice at tag 0 keeps only the second value, tags 0 and 1 coexist,
and lookup at a never-extended tag 0 reports its name. -/
theorem c6_dynamic_context_semantics_witness :
    ((0 : Nat) ≠ 1) ∧
    (∀ e ∈ ([⟨1, 5⟩] : List (DynEntry fun _ => Nat)), e.tag ≠ 0) ∧
    (dcGet (fun t => Nat.repr t)
        (dcExtend (dcExtend ([] : List (DynEntry fun _ => Nat)) 0 1) 0 2) 0 =
      .ok 2 ∧
     (dcGet (fun t => Nat.repr t)
         (dcExtend (dcExtend ([] : List (DynEntry fun _ => Nat)) 0 1) 1 3) 0 =
        .ok 1 ∧
      dcGet (fun t => Nat.repr t)
          (dcExtend (dcExtend ([] : List (DynEntry fun _ => Nat)) 0 1) 1 3) 1 =
        .ok 3) ∧
     dcGet (fun t => Nat.repr t)
         (dcApplyAll [] ([⟨1, 5⟩] : List (DynEntry fun _ => Nat))) 0 =
       .error ⟨Nat.repr 0⟩) :=
  ⟨by decide,
   by
     intro e he
     rw [List.mem_singleton] at he
     rw [he]
     decide,
   c6_dynamic_context_semantics (fun t => Nat.repr t) [] 0 1 1 2 3 (by decide)
     [⟨1, 5⟩]
     (by
       intro e he
       rw [List.mem_singleton] at he
       rw [he]
       decide)⟩

/-- C4: with a CommandKind present in the context, a store answering "an
execution of this kind is in progress" makes PreventDuplicateExecutions fail
with ExtensionFailed naming the kind, without running the inner command;
a store answering "none in progress" makes it run the inner command, pass an
inner success through unchanged, and wrap an inner error as CommandFailed. -/
theorem c4_prevent_duplicate_executions {O : Type} (kind : String)
    (anyInProgress : String → Except String Bool) (inner : Except String O) :
    (anyInProgress kind = .ok true →
       preventDuplicateExecute (.ok kind) anyInProgress inner =
         (.error (.extensionFailed "PreventDuplicateExecutions"
            ("other executions of kind '" ++ kind ++ "' are in progress")),
          false)) ∧
    (anyInProgress kind = .ok false →
       (∀ o, inner = .ok o →
          preventDuplicateExecute (.ok kind) anyInProgress inner =
            (.ok o, true)) ∧
       (∀ e, inner = .error e →
          preventDuplicateExecute (.ok kind) anyInProgress inner =
            (.error (.commandFailed "PreventDuplicateExecutions" e), true))) := by
  refine ⟨?_, fun h => ⟨?_, ?_⟩⟩
  · intro h
    simp [preventDuplicateExecute, h]
  · intro o ho
    simp [preventDuplicateExecute, h, ho]
  · intro e he
    simp [preventDuplicateExecute, h, he]

/-- C4 (witness): the theorem at kind "K", a store with no execution in
progress, and an inner command that succeeds with "out". -/
theorem c4_prevent_duplicate_executions_witness :
    ((fun _ : String => (.ok false : Except String Bool)) "K" = .ok false) ∧
    ((.ok "out" : Except String String) = .ok "out") ∧
    preventDuplicateExecute (.ok "K")
        (fun _ => (.ok false : Except String Bool))
        (.ok "out" : Except String String) = (.ok "out", true) :=
  ⟨rfl, rfl,
   ((c4_prevent_duplicate_executions "K" (fun _ => .ok false)
       (.ok "out")).2 rfl).1 "out" rfl⟩

/-- Per-row effect of the reap on one table row: the source's WHERE clause
(kind, InProgress, the updated_at NULL / NOT NULL disjunction against the
cutoff) marks exactly the rows whose last observed activity -- updated_at if
present, else started_at -- is older than the cutoff. -/
lemma brokenMark_eq (r : Execution) (kind : String) (minTs now : Int) :
    (if r.kind = kind ∧ r.status = ExecutionStatus.inProgress ∧
        staleActivity r minTs then
       { r with status := .failed, error_message := some "Timeout",
                completed_at := some now }
     else r) =
    (if r.status = ExecutionStatus.inProgress ∧ r.kind = kind ∧
        r.updated_at.getD r.started_at < minTs then
       { r with status := .failed, error_message := some "Timeout",
                completed_at := some now }
     else r) := by
  have hiff : (r.kind = kind ∧ r.status = ExecutionStatus.inProgress ∧
      staleActivity r minTs) ↔
      (r.status = ExecutionStatus.inProgress ∧ r.kind = kind ∧
       r.updated_at.getD r.started_at < minTs) := by
    cases h : r.updated_at with
    | none => simp only [staleActivity, h]; simp; tauto
    | some u => simp only [staleActivity, h]; simp; tauto
  rw [if_congr hiff rfl rfl]

/-- C5: the default maximum inactive duration is 300 seconds; the reap marks
as Failed with error_message "Timeout" and completed_at = now exactly the
InProgress rows of the given kind whose last observed activity (updated_at
if present, else started_at) is older than now minus the maximum inactive
duration, leaving every other row unchanged; and the extension performs the
reap before delegating, so the inner command observes the reaped table. -/
theorem c5_handle_broken_executions (db : List Execution) (kind : String)
    (maxInactiveTime now : Int) :
    DEFAULT_MAX_INACTIVE_TIME = 300 ∧
    (∀ k : Nat, (handleBrokenExecutions db kind maxInactiveTime now)[k]? =
       (db[k]?).map fun r =>
         if r.status = ExecutionStatus.inProgress ∧ r.kind = kind ∧
            r.updated_at.getD r.started_at < now - maxInactiveTime then
           { r with status := .failed, error_message := some "Timeout",
                    completed_at := some now }
         else r) ∧
    hbeExecute (.ok kind) maxInactiveTime now db (fun d => (.ok d, d)) =
      (.ok (handleBrokenExecutions db kind maxInactiveTime now),
       handleBrokenExecutions db kind maxInactiveTime now) := by
  refine ⟨rfl, ?_, ?_⟩
  · intro k
    simp only [handleBrokenExecutions, List.getElem?_map]
    cases db[k]? with
    | none => rfl
    | some r =>
        simp only [Option.map_some']
        exact congrArg some (brokenMark_eq r kind (now - maxInactiveTime) now)
  · simp [hbeExecute]

/-- C5 (witness): a two-row table of kind "K": a stale InProgress row
(started at 0, never heartbeated) is reaped at time 1000 with cutoff 300,
while a fresh InProgress row (heartbeated at 900) is kept. -/
theorem c5_handle_broken_executions_witness :
    DEFAULT_MAX_INACTIVE_TIME = 300 ∧
    (handleBrokenExecutions
        [{ id := 1, kind := "K", status := .inProgress, error_message := none,
           command_output := none, started_at := 0, updated_at := none,
           completed_at := none },
         { id := 2, kind := "K", status := .inProgress, error_message := none,
           command_output := none, started_at := 0, updated_at := some 900,
           completed_at := none }] "K" 300 1000)[0]? =
      some { id := 1, kind := "K", status := .failed,
             error_message := some "Timeout", command_output := none,
             started_at := 0, updated_at := none, completed_at := some 1000 } ∧
    (handleBrokenExecutions
        [{ id := 1, kind := "K", status := .inProgress, error_message := none,
           command_output := none, started_at := 0, updated_at := none,
           completed_at := none },
         { id := 2, kind := "K", status := .inProgress, error_message := none,
           command_output := none, started_at := 0, updated_at := some 900,
           completed_at := none }] "K" 300 1000)[1]? =
      some { id := 2, kind := "K", status := .inProgress,
             error_message := none, command_output := none, started_at := 0,
             updated_at := some 900, completed_at := none } := by
  refine ⟨(c5_handle_broken_executions [] "K" 300 1000).1, ?_, ?_⟩
  · rw [((c5_handle_broken_executions
      [{ id := 1, kind := "K", status := .inProgress, error_message := none,
         command_output := none, started_at := 0, updated_at := none,
         completed_at := none },
       { id := 2, kind := "K", status := .inProgress, error_message := none,
         command_output := none, started_at := 0, updated_at := some 900,
         completed_at := none }] "K" 300 1000).2.1 0)]
    decide
  · rw [((c5_handle_broken_executions
      [{ id := 1, kind := "K", status := .inProgress, error_message := none,
         command_output := none, started_at := 0, updated_at := none,
         completed_at := none },
       { id := 2, kind := "K", status := .inProgress, error_message := none,
         command_output := none, started_at := 0, updated_at := some 900,
         completed_at := none }] "K" 300 1000).2.1 1)]
    decide

/-- C10: Execute-In-Background reads the CommandExecutionId from the context
before spawning; when it is absent the extension returns a Context error and
never spawns the inner command; when it is present the output is exactly
that id and the inner command is spawned (its join handle is dropped by the
source, which is why the model returns no handle). -/
theorem c10_execute_in_background (ctxId : Except String Nat) :
    (∀ e, ctxId = .error e →
       executeInBackground ctxId =
         (.error (.context "ExecuteInBackground" e), false)) ∧
    (∀ i, ctxId = .ok i → executeInBackground ctxId = (.ok i, true)) := by
  refine ⟨?_, ?_⟩ <;> intro a h <;> subst h <;> rfl

/-- C10 (witness): the theorem at the present id 7 and at a missing id. -/
theorem c10_execute_in_background_witness :
    ((.ok 7 : Except String Nat) = .ok 7) ∧
    executeInBackground (.ok 7) = (.ok 7, true) :=
  ⟨rfl, (c10_execute_in_background (.ok 7)).2 7 rfl⟩

/-- C3: if a heartbeat persistence call fails before the inner command
settles and before the timeout elapses, the tracked execution resolves to a
Datastore error with context "heartbeat failed" even though the inner
command would have succeeded; and the heartbeat loop never returns on its
own: as long as every store call succeeds it produces no result. -/
theorem c3_heartbeat_failure_preempts_success {O : Type} (i : Nat)
    (kind : String) (db : List Execution) (nowReg : Int)
    (innerTime maxTime hbInterval : Nat)
    (hbResponses : List (Except String Unit)) (o : O)
    (serialize : O → Except String String) (nowFin : Int) (j : Nat)
    (err : String) (hhb : firstHbError hbResponses = some (j, err))
    (hlt1 : hbInterval * (j + 1) < innerTime)
    (hlt2 : hbInterval * (j + 1) < maxTime) :
    (trackExecute (.ok i) (.ok kind) (.ok ()) db nowReg innerTime maxTime
        hbInterval hbResponses (.ok o) serialize nowFin).result =
      .error (.datastore "TrackExecution" ("heartbeat failed: " ++ err)) ∧
    (∀ rs : List (Except String Unit), (∀ r ∈ rs, r = .ok ()) →
       firstHbError rs = none) := by
  refine ⟨?_, ?_⟩
  · have hw : raceWinner innerTime maxTime hbInterval hbResponses =
        .heartbeat err := by
      simp [raceWinner, hhb, hlt1, hlt2]
    simp [trackExecute, hw]
  · intro rs
    induction rs with
    | nil => intro _; rfl
    | cons r rest ih =>
        intro hall
        have hr := hall r (List.mem_cons_self r rest)
        have hrest := ih fun r' h' => hall r' (List.mem_cons_of_mem r h')
        subst hr
        simp [firstHbError, hrest]

/-- C3 (witness): with a heartbeat every 10s whose second call fails at
t = 20, an inner command that would succeed at t = 100 under a 200s timeout
is reported as a heartbeat Datastore failure. -/
theorem c3_heartbeat_failure_preempts_success_witness :
    firstHbError [.ok (), .error "boom"] = some (1, "boom") ∧
    (10 * (1 + 1) < 100) ∧ (10 * (1 + 1) < 200) ∧
    (trackExecute (.ok 1) (.ok "K") (.ok ()) [] 0 100 200 10
        [.ok (), .error "boom"] (.ok "out")
        (fun s : String => .ok s) 5).result =
      .error (.datastore "TrackExecution" ("heartbeat failed: " ++ "boom")) :=
  ⟨rfl, by decide, by decide,
   (c3_heartbeat_failure_preempts_success 1 "K" [] 0 100 200 10
      [.ok (), .error "boom"] "out" (fun s => .ok s) 5 1 "boom" rfl
      (by decide) (by decide)).1⟩

/-- C7: Track-Execution reads the execution id, then the command kind, then
registers the execution; a failure of any of these three steps yields the
corresponding Context or Datastore error with the table untouched and no
effects at all -- the inner command never starts, no heartbeat is sent, and
no finalization is attempted; when all three succeed, the record is
registered. -/
theorem c7_track_execution_pre_phase {O : Type} (ctxId : Except String Nat)
    (ctxKind : Except String String) (regResult : Except String Unit)
    (db : List Execution) (nowReg : Int) (innerTime maxTime hbInterval : Nat)
    (hbResponses : List (Except String Unit)) (innerResult : Except String O)
    (serialize : O → Except String String) (nowFin : Int) :
    (∀ e, ctxId = .error e →
       trackExecute ctxId ctxKind regResult db nowReg innerTime maxTime
           hbInterval hbResponses innerResult serialize nowFin =
         ⟨.error (.context "TrackExecution" e), db, noEffects⟩) ∧
    (∀ i e, ctxId = .ok i → ctxKind = .error e →
       trackExecute ctxId ctxKind regResult db nowReg innerTime maxTime
           hbInterval hbResponses innerResult serialize nowFin =
         ⟨.error (.context "TrackExecution" e), db, noEffects⟩) ∧
    (∀ i k e, ctxId = .ok i → ctxKind = .ok k → regResult = .error e →
       trackExecute ctxId ctxKind regResult db nowReg innerTime maxTime
           hbInterval hbResponses innerResult serialize nowFin =
         ⟨.error (.datastore "TrackExecution" e), db, noEffects⟩) ∧
    (∀ i k, ctxId = .ok i → ctxKind = .ok k → regResult = .ok () →
       (trackExecute ctxId ctxKind regResult db nowReg innerTime maxTime
           hbInterval hbResponses innerResult serialize nowFin).effects.registered =
         true) := by
  refine ⟨?_, ?_, ?_, ?_⟩
  · intro e h
    subst h
    rfl
  · intro i e h1 h2
    subst h1
    subst h2
    rfl
  · intro i k e h1 h2 h3
    subst h1
    subst h2
    subst h3
    rfl
  · intro i k h1 h2 h3
    subst h1
    subst h2
    subst h3
    cases hw : raceWinner innerTime maxTime hbInterval hbResponses with
    | heartbeat e => simp [trackExecute, hw]
    | timeout => simp [trackExecute, hw]
    | innerDone =>
        cases innerResult with
        | error e => simp [trackExecute, hw]
        | ok o =>
            cases hs : serialize o with
            | error e => simp [trackExecute, hw, hs]
            | ok j => simp [trackExecute, hw, hs]

/-- C7 (witness): the theorem at a context missing the execution id. -/
theorem c7_track_execution_pre_phase_witness :
    ((.error "context not found" : Except String Nat) =
       .error "context not found") ∧
    trackExecute (.error "context not found") (.ok "K") (.ok ()) [] 0 100 200
        10 [] (.ok "out") (fun s : String => .ok s) 5 =
      ⟨.error (.context "TrackExecution" "context not found"), [], noEffects⟩ :=
  ⟨rfl,
   (c7_track_execution_pre_phase (.error "context not found") (.ok "K")
      (.ok ()) [] 0 100 200 10 [] (.ok "out") (fun s => .ok s) 5).1
     "context not found" rfl⟩

/-- C8: when the inner command wins the race and succeeds but serializing
its output fails, Track-Execution returns ExtensionFailed with context
"failed to convert output", calls neither execution_succeeded nor
execution_failed, and leaves the table exactly as registration left it, so
the record created by new_execution is still present and still InProgress. -/
theorem c8_serialize_failure_skips_finalization {O : Type} (i : Nat)
    (kind : String) (db : List Execution) (nowReg : Int)
    (innerTime maxTime hbInterval : Nat)
    (hbResponses : List (Except String Unit)) (o : O)
    (serialize : O → Except String String) (err : String) (nowFin : Int)
    (hhb : firstHbError hbResponses = none) (hit : innerTime < maxTime)
    (hser : serialize o = .error err) :
    trackExecute (.ok i) (.ok kind) (.ok ()) db nowReg innerTime maxTime
        hbInterval hbResponses (.ok o) serialize nowFin =
      ⟨.error (.extensionFailed "TrackExecution"
          ("failed to convert output: " ++ err)),
       newExecution db i kind nowReg,
       { registered := true, innerStarted := true,
         heartbeatLoopStarted := true, succeededCalled := false,
         failedCalled := false }⟩ ∧
    ({ id := i, kind := kind, status := .inProgress, error_message := none,
       command_output := none, started_at := nowReg, updated_at := none,
       completed_at := none } : Execution) ∈ newExecution db i kind nowReg := by
  have hw : raceWinner innerTime maxTime hbInterval hbResponses =
      .innerDone := by
    simp [raceWinner, hhb, Nat.not_lt.mpr (Nat.le_of_lt hit)]
  refine ⟨?_, ?_⟩
  · simp [trackExecute, hw, hser]
  · simp [newExecution]

/-- C8 (witness): the theorem with an inner command finishing at t = 100
under a 200s timeout, all heartbeats healthy, and a serializer that rejects
the output "out". -/
theorem c8_serialize_failure_skips_finalization_witness :
    firstHbError ([] : List (Except String Unit)) = none ∧
    (100 < 200) ∧
    ((fun _ : String => (.error "not json" : Except String String)) "out" =
       .error "not json") ∧
    trackExecute (.ok 1) (.ok "K") (.ok ()) [] 0 100 200 10 [] (.ok "out")
        (fun _ => .error "not json") 5 =
      ⟨.error (.extensionFailed "TrackExecution"
          ("failed to convert output: " ++ "not json")),
       newExecution [] 1 "K" 0,
       { registered := true, innerStarted := true,
         heartbeatLoopStarted := true, succeededCalled := false,
         failedCalled := false }⟩ :=
  ⟨rfl, by decide, rfl,
   (c8_serialize_failure_skips_finalization 1 "K" [] 0 100 200 10 [] "out"
      (fun _ => .error "not json") "not json" 5 rfl (by decide) rfl).1⟩

end Graphman
